import Mathlib

/-!
Verification development for a rental bidding recommendation tool.

This file gives a shallow embedding, over the rational numbers, of the core
of the tool: the market classifier, the landlord behavioural model, the
competitor-bid distribution, the payoff / evaluation functions, the
three-player expectiminimax search, and the strategy generator.  All real
(float) arithmetic of the source is modelled exactly on `ℚ`.

The only non-rational ingredient of the source is the log-normal cumulative
distribution function from scipy.  The embedding is parametric in that
function: a value `Φ : CDF` assigns to each `(sigma, scale)` pair the
cumulative function `ℚ → ℚ` of `scipy.stats.lognorm(s=sigma, scale=scale)`.
Every theorem below either holds for an arbitrary `Φ`, or is evaluated on a
search path that never consults `Φ`.
-/

namespace RentalBidding

/-- The cumulative-distribution-function family `lognorm(s=sigma, scale).cdf`:
arguments are `sigma`, `scale`, and the evaluation point. -/
abbrev CDF : Type := ℚ → ℚ → ℚ → ℚ

/-- Market regime, the result of `classify_market_conditions`. -/
inductive Regime where
  | very_cool
  | cooling
  | balanced
  | very_hot
deriving DecidableEq, Repr

/-- The landlord's terminal decision (`landlord_final_decision`). -/
inductive Decision where
  | accept_tenant
  | accept_competitor
  | reject_all
deriving DecidableEq, Repr

/-- Landlord feedback that moves the game to round 3 (`landlord_feedback`). -/
inductive Feedback where
  | request_best_final
  | counter_offer
deriving DecidableEq, Repr

/-- A landlord action record, the closed tagged union of the string-keyed
dictionaries produced by `get_landlord_actions`. -/
inductive LAction where
  | accept_tenant (bid : ℚ)
  | accept_competitor (bid : ℚ)
  | request_best_final (min_increase : ℚ)
  | counter_offer (counter_price : ℚ)
  | reject_all
deriving DecidableEq, Repr

/-- Player type tag of the three-player expectiminimax. -/
inductive PlayerType where
  | tenant_max
  | competitor_chance
  | landlord_min
deriving DecidableEq, Repr

/-- Embeds `user_preferences` dictionary. -/
structure UserPrefs where
  max_budget : ℚ
  property_value : ℚ
  risk_tolerance : ℚ
deriving DecidableEq, Repr

/-- Embeds `rental_situation` dictionary. -/
structure RentalSituation where
  listing_price : ℚ
  neighborhood_avg : ℚ
  days_on_market : ℚ
  price_sens_landlord : ℚ
  competitive_level : ℕ
deriving DecidableEq, Repr

/-- Embeds `market_params`: the `parameters` sub-dictionary plus the distribution
type tag. -/
structure MarketParams where
  median : ℚ
  sigma : ℚ
  skew : ℚ
  distribution_type : String
deriving DecidableEq, Repr

/-- The game state (`GameState` dataclass).  Optional fields of the source
are `Option` values here; `hasattr` on a dataclass field is always true. -/
structure GameState where
  user_preferences : UserPrefs
  rental_situation : RentalSituation
  market_params : MarketParams
  round : ℕ := 1
  property_value_weight : ℚ := 1
  overpayment_weight : ℚ := 1
  user_bid : Option ℚ := none
  highest_competitor_bid : Option ℚ := none
  landlord_feedback : Option Feedback := none
  landlord_final_decision : Option Decision := none
  counter_price : Option ℚ := none
  previous_bid : Option ℚ := none
  all_final_bids_submitted : Bool := false
  competitor_increase_forced : Bool := false
  min_increase : Option ℚ := none
  won_property : Bool := false
  risk_tolerance : ℚ
  negotiation_cost : ℚ := 1/20
deriving DecidableEq, Repr

/-- Derived property `max_budget`. -/
def GameState.max_budget (s : GameState) : ℚ := s.user_preferences.max_budget

/-- Derived property `listing_price`. -/
def GameState.listing_price (s : GameState) : ℚ := s.rental_situation.listing_price

/-- Derived property `neighborhood_avg`. -/
def GameState.neighborhood_avg (s : GameState) : ℚ := s.rental_situation.neighborhood_avg

/-- Derived property `days_on_market`: three extra days of staleness are
assumed between round 1 and round 3. -/
def GameState.days_on_market (s : GameState) : ℚ :=
  if s.round = 3 then s.rental_situation.days_on_market + 3
  else s.rental_situation.days_on_market

/-- Derived property `competitive_level`. -/
def GameState.competitive_level (s : GameState) : ℕ := s.rental_situation.competitive_level

/-- Derived property `property_value`. -/
def GameState.property_value (s : GameState) : ℚ := s.user_preferences.property_value

/-- Embeds `config/constants.py`: depth of the expectiminimax tree. -/
def TREE_DEPTH : ℕ := 4

/-- Embeds `config/constants.py`: number of bid points sampled by the competitor
distribution. -/
def NUM_BID_SAMPLES : ℕ := 20

/-- Embeds `config/constants.py`: minimum probability a chance branch must carry. -/
def PROBABILITY_THRESHOLD : ℚ := 1/100

/-- Embeds `config/constants.py`: weight of property value in the payoff. -/
def PROPERTY_VALUE_WEIGHT : ℚ := 1

/-- Embeds `config/constants.py`: weight of the overpayment penalty. -/
def OVERPAYMENT_WEIGHT : ℚ := 6/10

/-- Embeds `config/constants.py`: fraction by which the stated budget may be
stretched. -/
def BUDGET_FLEXIBILITY : ℚ := 1/10

/-- Embeds `models/market.py`: `classify_market_conditions`. -/
def classify_market_conditions (p : MarketParams) : Regime :=
  if p.median < 95/100 ∧ p.sigma < 8/100 then .very_cool
  else if p.median < 1 then .cooling
  else if p.median > 105/100 ∧ p.sigma > 10/100 then .very_hot
  else .balanced

/-- Embeds `models/payoff.py`: `get_staleness_discount`.  The threshold table of the
source is iterated over its sorted numeric keys 7/14/30 with the `default`
entry as the fall-through. -/
def get_staleness_discount (days_on_market : ℚ) (market_condition : Regime) : ℚ :=
  match market_condition with
  | .very_cool =>
      if days_on_market ≤ 7 then 98/100
      else if days_on_market ≤ 14 then 95/100
      else if days_on_market ≤ 30 then 90/100
      else 85/100
  | .cooling =>
      if days_on_market ≤ 7 then 99/100
      else if days_on_market ≤ 14 then 97/100
      else if days_on_market ≤ 30 then 93/100
      else 88/100
  | .balanced =>
      if days_on_market ≤ 7 then 1
      else if days_on_market ≤ 14 then 98/100
      else if days_on_market ≤ 30 then 95/100
      else 92/100
  | .very_hot =>
      if days_on_market ≤ 7 then 1
      else if days_on_market ≤ 14 then 99/100
      else if days_on_market ≤ 30 then 97/100
      else 95/100

/-- Embeds `models/payoff.py`: `calculate_fair_market_value`. -/
def calculate_fair_market_value (listing_price neighborhood_avg days_on_market : ℚ)
    (market_params : MarketParams) : ℚ :=
  let market_implied_value := market_params.median * listing_price
  let market_condition := classify_market_conditions market_params
  let base_value :=
    if market_condition = .very_cool ∨ market_condition = .cooling then
      4/10 * market_implied_value + 6/10 * neighborhood_avg
    else
      7/10 * market_implied_value + 3/10 * neighborhood_avg
  base_value * get_staleness_discount days_on_market market_condition

/-- Embeds `algorithm/landlord_model.py`: the derived behavioural record of the
`LandlordProfile` class. -/
structure LandlordProfile where
  days_on_market : ℚ
  market_condition : Regime
  price_sensitivity : ℚ
  desperation_factor : ℚ
  acceptance_threshold : ℚ
  rejection_threshold : ℚ
  negotiation_willingness : ℚ
deriving DecidableEq, Repr

/-- Embeds `LandlordProfile.calculate_desperation`: a step function of
days-on-market. -/
def calculate_desperation (days_on_market : ℚ) : ℚ :=
  if days_on_market < 3 then 1/10
  else if days_on_market < 7 then 3/10
  else if days_on_market < 14 then 6/10
  else if days_on_market < 30 then 8/10
  else 95/100

/-- Embeds `LandlordProfile.calculate_acceptance_threshold`. -/
def calculate_acceptance_threshold (market_condition : Regime)
    (desperation_factor price_sensitivity : ℚ) : ℚ :=
  let base_threshold : ℚ :=
    match market_condition with
    | .very_hot => 105/100
    | .balanced => 1
    | .cooling => 98/100
    | .very_cool => 95/100
  let threshold := base_threshold * (1 - 1/10 * desperation_factor)
      * (1 - 5/100 * (price_sensitivity - 2))
  max (90/100) threshold

/-- Embeds `LandlordProfile.calculate_negotiation_willingness`. -/
def calculate_negotiation_willingness (market_condition : Regime)
    (desperation_factor : ℚ) : ℚ :=
  let base_willingness : ℚ := if market_condition = .very_hot then 7/10 else 3/10
  base_willingness * (1 - 1/2 * desperation_factor)

/-- Embeds `LandlordProfile.__init__`: derive the behavioural parameters. -/
def mkLandlordProfile (days_on_market : ℚ) (market_condition : Regime)
    (price_sensitivity : ℚ) : LandlordProfile :=
  let desperation := calculate_desperation days_on_market
  let acceptance := calculate_acceptance_threshold market_condition desperation price_sensitivity
  { days_on_market := days_on_market
    market_condition := market_condition
    price_sensitivity := price_sensitivity
    desperation_factor := desperation
    acceptance_threshold := acceptance
    rejection_threshold := acceptance - 1/10
    negotiation_willingness := calculate_negotiation_willingness market_condition desperation }

/-- Embeds `filter_landlord_actions`: drop `reject_all` for desperate landlords and,
for firm landlords, accept actions whose (dollar) bid is below
`acceptance_threshold * 1.02`; fall back to the unfiltered list if nothing
survives.  Note the source compares the dollar bid directly against the
ratio-valued threshold. -/
def filter_landlord_actions (actions : List LAction) (landlord : LandlordProfile) :
    List LAction :=
  let filtered := actions.filter fun action =>
    match action with
    | .reject_all => ¬ (landlord.desperation_factor > 7/10)
    | .accept_tenant bid =>
        ¬ (landlord.price_sensitivity = 1 ∧ bid < landlord.acceptance_threshold * (102/100))
    | .accept_competitor bid =>
        ¬ (landlord.price_sensitivity = 1 ∧ bid < landlord.acceptance_threshold * (102/100))
    | _ => true
  if filtered = [] then actions else filtered

/-- Embeds `get_landlord_actions`: enumerate the landlord's feasible reactions to
the current bids, then filter them by the landlord's profile. -/
def get_landlord_actions (state : GameState) : List LAction :=
  match state.user_bid with
  | none => []
  | some tenant_bid =>
    let competitor_bid := state.highest_competitor_bid
    let asking_price := state.listing_price
    let landlord := mkLandlordProfile state.days_on_market
      (classify_market_conditions state.market_params)
      state.rental_situation.price_sens_landlord
    let accept_actions : List LAction :=
      match competitor_bid with
      | some cb =>
          if max tenant_bid cb ≥ asking_price * landlord.acceptance_threshold then
            if tenant_bid ≥ cb then [.accept_tenant tenant_bid]
            else [.accept_competitor cb]
          else []
      | none =>
          if tenant_bid ≥ asking_price * landlord.acceptance_threshold then
            [.accept_tenant tenant_bid]
          else []
    let best_final_actions : List LAction :=
      match competitor_bid with
      | some cb =>
          if cb ≠ 0 ∧ tenant_bid ≠ 0 then
            let bid_spread := |tenant_bid - cb| / max tenant_bid cb
            if bid_spread < 5/100 ∧ state.all_final_bids_submitted = false then
              [.request_best_final (asking_price * (2/100))]
            else []
          else []
      | none => []
    let highest_bid :=
      match competitor_bid with
      | some cb => max tenant_bid cb
      | none => tenant_bid
    let counter_actions : List LAction :=
      if highest_bid < asking_price ∧ highest_bid > asking_price * (9/10) then
        [.counter_offer asking_price]
      else []
    let reject_actions : List LAction :=
      if highest_bid < asking_price * landlord.rejection_threshold then
        [.reject_all]
      else []
    filter_landlord_actions
      (accept_actions ++ best_final_actions ++ counter_actions ++ reject_actions) landlord

/-- Embeds `np.linspace(lo, hi, n)`: `n` evenly spaced points from `lo` to `hi`
inclusive. -/
def linspace (lo hi : ℚ) (n : ℕ) : List ℚ :=
  (List.range n).map fun i : ℕ => lo + (hi - lo) * (i : ℚ) / ((n : ℚ) - 1)

/-- Embeds `models/mixture.py` combined with `create_skewed_lognormal` from
`models/distributions.py`: the cumulative function of a (possibly mixed)
log-normal distribution.  The two mixture weights of the source already sum
to one, so the defensive renormalisation of `MixtureDistribution.__init__`
divides by one. -/
def create_skewed_lognormal (Φ : CDF) (median sigma skew : ℚ) : ℚ → ℚ :=
  if |skew| < 1/100 then Φ sigma median
  else if skew > 0 then
    let weight := 8/10 - 3/10 * min skew 1
    fun x => weight * Φ sigma median x + (1 - weight) * Φ (sigma * (15/10)) (median * (11/10)) x
  else
    let weight := 8/10 + 3/10 * max skew (-1)
    fun x => weight * Φ sigma median x + (1 - weight) * Φ (sigma * (7/10)) (median * (95/100)) x

/-- Embeds `get_dynamic_bid_range`: the sampled window of competitor bids, widened
with the market regime and clamped to `[0.85, 1.30]` times the listing. -/
def get_dynamic_bid_range (median sigma listing_price : ℚ) (market_condition : Regime) :
    List ℚ :=
  let lower_mult : ℚ :=
    match market_condition with
    | .very_cool => -(15/10)
    | .cooling => -2
    | .balanced => -1
    | .very_hot => -(5/10)
  let upper_mult : ℚ :=
    match market_condition with
    | .very_cool => 2
    | .cooling => 25/10
    | .balanced => 3
    | .very_hot => 4
  let lower_bound := max (85/100 * listing_price) (median + lower_mult * sigma * listing_price)
  let upper_bound := min (130/100 * listing_price) (median + upper_mult * sigma * listing_price)
  linspace lower_bound upper_bound NUM_BID_SAMPLES

/-- Embeds `get_competitor_bid_distribution`: map `competitive_level` to a number of
independent competing bidders (any other key would raise in the source). -/
def numCompetitors (comp_level : ℕ) : ℕ :=
  if comp_level = 1 then 1 else if comp_level = 2 then 2 else if comp_level = 3 then 3 else 0

/-- Embeds `calculate_order_statistics`, tail of the loop: the mass at each point
after the first is the difference of consecutive `CDF^N` values, clamped to
be non-negative. -/
def orderStatRest (f : ℚ → ℚ) : ℚ → List ℚ → List ℚ
  | _, [] => []
  | prev, bid :: rest => max 0 (f bid - f prev) :: orderStatRest f bid rest

/-- Embeds `calculate_order_statistics`: the discrete mass function of the maximum
of `num_competitors` i.i.d. draws, over the sample points. -/
def calculate_order_statistics (Φ : CDF) (bid_range : List ℚ) (median sigma skew : ℚ)
    (num_competitors : ℕ) : List ℚ :=
  let dist := create_skewed_lognormal Φ median sigma skew
  let f : ℚ → ℚ := fun bid => dist bid ^ num_competitors
  match bid_range with
  | [] => []
  | bid0 :: rest => max 0 (f bid0) :: orderStatRest f bid0 rest

/-- Embeds `validate_market_parameters`: the eager range assertions, as a decidable
predicate. -/
def validate_market_parameters (p : MarketParams) : Bool :=
  decide (5/10 ≤ p.median ∧ p.median ≤ 15/10) &&
  decide (1/100 ≤ p.sigma ∧ p.sigma ≤ 5/10) &&
  decide (-1 ≤ p.skew ∧ p.skew ≤ 1) &&
  (p.distribution_type = "log_normal" || p.distribution_type = "skewed_normal")

/-- Embeds `get_competitor_bid_distribution`, sample points: the dynamic bid range
of the state. -/
def competitor_bid_range (state : GameState) : List ℚ :=
  get_dynamic_bid_range (state.market_params.median * state.listing_price)
    state.market_params.sigma state.listing_price
    (classify_market_conditions state.market_params)

/-- Embeds `get_competitor_bid_distribution`, raw masses: the order-statistics
masses over the sample points, before normalisation. -/
def competitor_masses (Φ : CDF) (state : GameState) : List ℚ :=
  calculate_order_statistics Φ (competitor_bid_range state)
    (state.market_params.median * state.listing_price)
    state.market_params.sigma state.market_params.skew
    (numCompetitors state.competitive_level)

/-- Embeds `get_competitor_bid_distribution`: the discretised distribution of the
highest competing bid; masses are normalised to sum to one, with a uniform
fallback when they all vanish. -/
def get_competitor_bid_distribution (Φ : CDF) (state : GameState) : List (ℚ × ℚ) :=
  let bid_range := competitor_bid_range state
  let probabilities := competitor_masses Φ state
  let total := probabilities.sum
  if total = 0 then
    bid_range.zip (List.replicate bid_range.length ((1 : ℚ) / bid_range.length))
  else
    bid_range.zip (probabilities.map fun prob => prob / total)

/-- Embeds `models/payoff.py`: `heuristic_evaluation`, the clamped non-terminal
estimate used for move ordering and pruning.  Python truthiness: an unset
or zero tenant bid short-circuits to `0`, and an unset or zero competitor
bid falls back to the market distribution. -/
def heuristic_evaluation (Φ : CDF) (state : GameState) : ℚ :=
  match state.user_bid with
  | none => 0
  | some user_bid =>
    if user_bid = 0 then 0 else
    let win_prob_base : ℚ :=
      match state.highest_competitor_bid with
      | some cb =>
          if cb ≠ 0 then
            if user_bid > cb then 7/10
            else if user_bid = cb then 5/10
            else 3/10
          else
            ((get_competitor_bid_distribution Φ state).map fun e =>
              if user_bid > e.1 then e.2 else 0).sum
      | none =>
          ((get_competitor_bid_distribution Φ state).map fun e =>
            if user_bid > e.1 then e.2 else 0).sum
    let bid_ratio := user_bid / state.listing_price
    let landlord_profile := mkLandlordProfile state.days_on_market
      (classify_market_conditions state.market_params)
      state.rental_situation.price_sens_landlord
    let win_prob :=
      if bid_ratio ≥ landlord_profile.acceptance_threshold then win_prob_base * (12/10)
      else if bid_ratio < landlord_profile.rejection_threshold then win_prob_base * (3/10)
      else win_prob_base
    let expected_value :=
      if win_prob > 0 then
        let fair_value := calculate_fair_market_value state.listing_price
          state.neighborhood_avg state.days_on_market state.market_params
        let overpayment := user_bid - fair_value
        let overpayment_penalty := overpayment / state.listing_price * 2
        let property_value := state.property_value / 5
        win_prob * (property_value - overpayment_penalty)
      else
        -(1/2) * (state.property_value / 5)
    max (-1) (min 1 expected_value)

/-- Embeds `models/payoff.py`: `evaluate`, the bounded scalar utility of a terminal
or intermediate state, as the partial function the source computes.  In the
`accept_tenant` branch the source reads the tenant bid directly, so a
terminal `accept_tenant` state with an unset tenant bid raises a `TypeError`
(`payoff.py:24`, `None - fair_value`) instead of returning; that error path
is `none` here.  Every other state returns a value. -/
def evaluate_result (Φ : CDF) (state : GameState) : Option ℚ :=
  match state.landlord_final_decision with
  | some .accept_tenant =>
      match state.user_bid with
      | none => none
      | some user_bid =>
        let fair_value := calculate_fair_market_value state.listing_price
          state.neighborhood_avg state.days_on_market state.market_params
        let overpayment := user_bid - fair_value
        let overpayment_ratio := overpayment / state.listing_price
        let normalized_property_value := state.property_value / 5
        let base_payoff := normalized_property_value
          - overpayment_ratio * 2 * state.overpayment_weight
        let competition_bonus : ℚ := 1/10 * (state.competitive_level : ℚ) / 3
        let round_penalty := state.negotiation_cost * (state.round - 1)
        let risk_factor := (state.risk_tolerance - 3) / 10
        let final_payoff := (base_payoff + competition_bonus - round_penalty) * (1 + risk_factor)
        some (max (-1) (min 1 final_payoff))
  | some .accept_competitor =>
      let opportunity_cost := -(1/2) * (state.property_value / 5)
      some (if state.competitor_increase_forced then opportunity_cost + 1/10
        else opportunity_cost)
  | some .reject_all => some (-(2/10))
  | none => some (heuristic_evaluation Φ state)

/-- Totalisation of `evaluate_result` used by the (total) search embedding.
It agrees with the source wherever the source returns; the search only
evaluates `accept_tenant` states whose tenant bid is set, because the
landlord enumerates no accept action without a tenant bid, so on every
input on which the source does not raise, the search embedding and the
source coincide. -/
def evaluate (Φ : CDF) (state : GameState) : ℚ :=
  (evaluate_result Φ state).getD 0

/-- IEEE-style extended rationals: the search seeds its max/min accumulators
and the alpha/beta window with `float('-inf')` / `float('inf')`.  Mixed-sign
infinite sums (a float NaN) never arise on the paths the search takes; the
embedding maps them to `0`. -/
inductive ExtQ where
  | ninf
  | fin (q : ℚ)
  | pinf
deriving DecidableEq, Repr

/-- Embeds `<=` on extended rationals. -/
def ExtQ.le : ExtQ → ExtQ → Bool
  | .ninf, _ => true
  | _, .pinf => true
  | .fin a, .fin b => decide (a ≤ b)
  | .fin _, .ninf => false
  | .pinf, _ => false

/-- Embeds `<` on extended rationals. -/
def ExtQ.lt : ExtQ → ExtQ → Bool
  | .ninf, .ninf => false
  | .ninf, _ => true
  | .fin _, .pinf => true
  | .fin a, .fin b => decide (a < b)
  | .fin _, .ninf => false
  | .pinf, _ => false

/-- Python `max(a, b)` (returns the first argument on ties). -/
def ExtQ.max (a b : ExtQ) : ExtQ := if ExtQ.lt a b then b else a

/-- Python `min(a, b)` (returns the first argument on ties). -/
def ExtQ.min (a b : ExtQ) : ExtQ := if ExtQ.lt b a then b else a

/-- Addition on extended rationals. -/
def ExtQ.add : ExtQ → ExtQ → ExtQ
  | .fin a, .fin b => .fin (a + b)
  | .ninf, .pinf => .fin 0
  | .pinf, .ninf => .fin 0
  | .ninf, _ => .ninf
  | .pinf, _ => .pinf
  | .fin _, .ninf => .ninf
  | .fin _, .pinf => .pinf

/-- Scaling by a rational (the chance node multiplies probabilities, which
exceed the strictly positive pruning threshold, by child values). -/
def ExtQ.mulQ (p : ℚ) : ExtQ → ExtQ
  | .fin x => .fin (p * x)
  | .pinf => if p > 0 then .pinf else if p < 0 then .ninf else .fin 0
  | .ninf => if p > 0 then .ninf else if p < 0 then .pinf else .fin 0

/-- Insertion step of a stable descending sort by key (equal keys keep the
original order, as Python's `sorted(..., reverse=True)` guarantees). -/
def insertDescBy {α : Type} (key : α → ℚ) (x : α) : List α → List α
  | [] => [x]
  | y :: ys => if key y > key x then y :: insertDescBy key x ys else x :: y :: ys

/-- Stable descending sort by key: `sorted(l, key=key, reverse=True)`. -/
def sortDescBy {α : Type} (key : α → ℚ) (l : List α) : List α :=
  l.foldr (insertDescBy key) []

/-- Insertion step of a stable ascending sort by key. -/
def insertAscBy {α : Type} (key : α → ℚ) (x : α) : List α → List α
  | [] => [x]
  | y :: ys => if key y < key x then y :: insertAscBy key x ys else x :: y :: ys

/-- Stable ascending sort by key: `sorted(l, key=key)`. -/
def sortAscBy {α : Type} (key : α → ℚ) (l : List α) : List α :=
  l.foldr (insertAscBy key) []

/-- Embeds `expectiminimax_landlord.py`: `is_terminal`. -/
def is_terminal (node : GameState) : Bool := node.landlord_final_decision.isSome

/-- Embeds `make_tenant_bid`: apply a tenant bid to a fresh copy of the state. -/
def make_tenant_bid (node : GameState) (bid : ℚ) : GameState :=
  { node with user_bid := some bid }

/-- Embeds `apply_competitor_bid`. -/
def apply_competitor_bid (state : GameState) (competitor_bid : ℚ) : GameState :=
  { state with highest_competitor_bid := some competitor_bid }

/-- Embeds `apply_landlord_decision`. -/
def apply_landlord_decision (state : GameState) (action : LAction) : GameState :=
  match action with
  | .accept_tenant _ =>
      { state with landlord_final_decision := some .accept_tenant, won_property := true }
  | .accept_competitor _ =>
      { state with landlord_final_decision := some .accept_competitor, won_property := false }
  | .reject_all =>
      { state with landlord_final_decision := some .reject_all, won_property := false }
  | .counter_offer cp => { state with counter_price := some cp }
  | .request_best_final mi => { state with min_increase := some mi }

/-- Embeds `get_possible_bids`, risk table: the key in the table closest to the
given risk tolerance (Python's `min` keeps the first minimiser of the
sorted key list `[1, 1.5, 2, 3, 4, 4.5, 5]`). -/
def closest_risk_level (risk_level : ℚ) : ℚ :=
  [(3:ℚ)/2, 2, 3, 4, 9/2, 5].foldl
    (fun best k => if |k - risk_level| < |best - risk_level| then k else best) 1

/-- Embeds `get_possible_bids`, risk table: `(center_offset, range)` per closest
risk level, one table for cooling markets and one for hot/balanced ones. -/
def risk_params (cooling : Bool) (level : ℚ) : ℚ × ℚ :=
  if cooling then
    if level = 1 then (-(8/100), 10/100)
    else if level = 3/2 then (-(6/100), 12/100)
    else if level = 2 then (-(4/100), 14/100)
    else if level = 3 then (-(2/100), 16/100)
    else if level = 4 then (0, 18/100)
    else if level = 9/2 then (2/100, 20/100)
    else (4/100, 22/100)
  else
    if level = 1 then (-(4/100), 10/100)
    else if level = 3/2 then (-(2/100), 12/100)
    else if level = 2 then (0, 14/100)
    else if level = 3 then (2/100, 16/100)
    else if level = 4 then (4/100, 18/100)
    else if level = 9/2 then (6/100, 20/100)
    else (8/100, 22/100)

/-- Embeds `get_possible_bids`: the tenant's candidate bids.  The round-3
counter-offer branch returns the raw optional fields (`hasattr` on a
dataclass field is always true), hence the `Option` element type; every
other branch returns concrete amounts. -/
def get_possible_bids (state : GameState) : List (Option ℚ) :=
  let listing_price := state.listing_price
  let flexible_budget := state.max_budget * (1 + BUDGET_FLEXIBILITY)
  if state.round = 3 ∧ state.landlord_feedback = some .counter_offer then
    [state.counter_price, state.user_bid]
  else if state.round = 3 ∧ state.landlord_feedback = some .request_best_final then
    let cur0 : Option ℚ :=
      match state.previous_bid with
      | some p => if p ≠ 0 then some p else state.user_bid
      | none => state.user_bid
    let current_bid := cur0.getD (listing_price * (98/100))
    let min_bid := current_bid * (102/100)
    let max_bid0 := min (current_bid * (110/100)) flexible_budget
    let max_bid := if min_bid > max_bid0 then min_bid * (105/100) else max_bid0
    (linspace min_bid max_bid 10).map some
  else
    let market_median_ratio := state.market_params.median
    let market_condition := classify_market_conditions state.market_params
    let cooling := market_condition = .cooling ∨ market_condition = .very_cool
    let rp := risk_params cooling (closest_risk_level state.risk_tolerance)
    let center_ratio := market_median_ratio + rp.1
    let min_ratio := center_ratio - rp.2 / 2
    let max_ratio := center_ratio + rp.2 / 2
    let min_bid0 := max (min_ratio * listing_price) (85/100 * listing_price)
    let max_bid0 := min (max_ratio * listing_price) flexible_budget
    let bounds :=
      if min_bid0 ≥ max_bid0 then
        let mb := min flexible_budget (listing_price * (105/100))
        (mb * (95/100), mb)
      else (min_bid0, max_bid0)
    if bounds.1 < bounds.2 then (linspace bounds.1 bounds.2 15).map some
    else [some bounds.1]

/-- Embeds `bid_heuristic_value`: move-ordering heuristic for tenant bids. -/
def bid_heuristic_value (Φ : CDF) (bid : ℚ) (state : GameState) : ℚ :=
  let competitor_dist := get_competitor_bid_distribution Φ state
  let win_prob := (competitor_dist.map fun e => if bid > e.1 then e.2 else 0).sum
  let bid_ratio := bid / state.listing_price
  let landlord_profile := mkLandlordProfile state.days_on_market
    (classify_market_conditions state.market_params)
    state.rental_situation.price_sens_landlord
  let accept_prob : ℚ :=
    if bid_ratio ≥ landlord_profile.acceptance_threshold then 9/10
    else if bid_ratio ≥ landlord_profile.acceptance_threshold - 5/100 then 6/10
    else 3/10
  let fair_value := calculate_fair_market_value state.listing_price
    state.neighborhood_avg state.days_on_market state.market_params
  let overpayment_penalty := max 0 ((bid - fair_value) / state.listing_price)
  win_prob * accept_prob - overpayment_penalty * (1/2)

/-- Embeds `estimate_tenant_surplus`: move-ordering key for landlord actions. -/
def estimate_tenant_surplus (landlord_action : LAction) (state : GameState) : ℚ :=
  match landlord_action with
  | .accept_tenant _ =>
      let fair_value := calculate_fair_market_value state.listing_price
        state.neighborhood_avg state.days_on_market state.market_params
      let tenant_bid := state.user_bid.getD fair_value
      fair_value - tenant_bid
  | .accept_competitor _ => -(1/2) * state.property_value
  | .reject_all => -(2/10)
  | .request_best_final _ => -(state.listing_price * (3/100))
  | .counter_offer _ =>
      let tenant_bid := state.user_bid.getD (state.listing_price * (95/100))
      state.listing_price - tenant_bid

/-- A search "action" as returned by `expectiminimax_with_landlord`: a bid
amount from a tenant node, or a landlord action from a landlord node
(chance nodes return no action). -/
inductive SearchAction where
  | bid (b : ℚ)
  | act (a : LAction)
deriving DecidableEq, Repr

/-- Tenant (maximising) loop of the search: skip over-budget bids, track the
best value and bid, raise alpha, and break on `beta <= alpha`. -/
def tenantLoop (flex : ℚ) (beta : ExtQ) (step : ℚ → ExtQ → ExtQ) :
    List ℚ → ExtQ → Option ℚ → ExtQ → ExtQ × Option ℚ
  | [], max_eval, best_action, _ => (max_eval, best_action)
  | bid :: rest, max_eval, best_action, alpha =>
    if bid > flex then tenantLoop flex beta step rest max_eval best_action alpha
    else
      let eval_score := step bid alpha
      let acc := if ExtQ.lt max_eval eval_score then (eval_score, some bid)
        else (max_eval, best_action)
      let alpha' := ExtQ.max alpha eval_score
      if ExtQ.le beta alpha' then acc
      else tenantLoop flex beta step rest acc.1 acc.2 alpha'

/-- Chance (expectation) loop of the search: skip branches below the
probability threshold, accumulate the expectation, and break once the
optimistic bound falls below alpha or the pessimistic bound exceeds beta. -/
def chanceLoop (recurScore : ℚ → ExtQ) (alpha beta : ExtQ) :
    List (ℚ × ℚ) → ExtQ → ℚ → ExtQ
  | [], expected_value, _ => expected_value
  | (competitor_bid, probability) :: rest, expected_value, cumulative_prob =>
    if probability < PROBABILITY_THRESHOLD then
      chanceLoop recurScore alpha beta rest expected_value cumulative_prob
    else
      let eval_score := recurScore competitor_bid
      let expected' := ExtQ.add expected_value (ExtQ.mulQ probability eval_score)
      let cumulative' := cumulative_prob + probability
      let remaining := 1 - cumulative'
      if ExtQ.lt (ExtQ.add expected' (.fin remaining)) alpha then expected'
      else if ExtQ.lt beta (ExtQ.add expected' (.fin (remaining * (-1)))) then expected'
      else chanceLoop recurScore alpha beta rest expected' cumulative'

/-- Landlord (minimising) loop of the search: track the worst value for the
tenant, lower beta, and break on `beta <= alpha`. -/
def landlordLoop (alpha : ExtQ) (score : LAction → ExtQ → ExtQ) :
    List LAction → ExtQ → Option LAction → ExtQ → ExtQ × Option LAction
  | [], min_eval, best_action, _ => (min_eval, best_action)
  | action :: rest, min_eval, best_action, beta =>
    let eval_score := score action beta
    let acc := if ExtQ.lt eval_score min_eval then (eval_score, some action)
      else (min_eval, best_action)
    let beta' := ExtQ.min beta eval_score
    if ExtQ.le beta' alpha then acc
    else landlordLoop alpha score rest acc.1 acc.2 beta'

/-- One layer of `expectiminimax_with_landlord`, parameterised by the
recursion for the remaining depth.  Terminal states short-circuit to the
evaluation at every depth. -/
def emm_step (Φ : CDF)
    (recur : GameState → ExtQ → ExtQ → PlayerType → ExtQ × Option SearchAction)
    (node : GameState) (alpha beta : ExtQ) (player_type : PlayerType) :
    ExtQ × Option SearchAction :=
  if is_terminal node then (.fin (evaluate Φ node), none)
  else match player_type with
  | .tenant_max =>
      let possible_bids := (get_possible_bids node).filterMap id
      let sorted_bids := sortDescBy (fun b => bid_heuristic_value Φ b node) possible_bids
      let flex := node.max_budget * (1 + BUDGET_FLEXIBILITY)
      let step : ℚ → ExtQ → ExtQ := fun bid alpha' =>
        let child := make_tenant_bid node bid
        if node.round = 1 then (recur child alpha' beta .competitor_chance).1
        else (recur { child with all_final_bids_submitted := true } alpha' beta .landlord_min).1
      let r := tenantLoop flex beta step sorted_bids .ninf none alpha
      (r.1, r.2.map .bid)
  | .competitor_chance =>
      let bid_distribution := sortDescBy (fun e => e.2) (get_competitor_bid_distribution Φ node)
      let recurScore : ℚ → ExtQ := fun cb =>
        (recur (apply_competitor_bid node cb) alpha beta .landlord_min).1
      (chanceLoop recurScore alpha beta bid_distribution (.fin 0) 0, none)
  | .landlord_min =>
      let landlord_actions :=
        sortAscBy (fun a => estimate_tenant_surplus a node) (get_landlord_actions node)
      let score : LAction → ExtQ → ExtQ := fun action beta' =>
        let child := apply_landlord_decision node action
        match action with
        | .accept_tenant _ => .fin (evaluate Φ child)
        | .accept_competitor _ => .fin (evaluate Φ child)
        | .reject_all => .fin (evaluate Φ child)
        | .request_best_final _ =>
            (recur { child with round := 3, landlord_feedback := some .request_best_final }
              alpha beta' .tenant_max).1
        | .counter_offer _ =>
            (recur { child with round := 3, landlord_feedback := some .counter_offer }
              alpha beta' .tenant_max).1
      let r := landlordLoop alpha score landlord_actions .pinf none beta
      (r.1, r.2.map .act)

/-- Embeds `expectiminimax_with_landlord`: the three-player search.  A node reached
with depth `0`, of any player type, returns the static evaluation; a
`none` entry among the candidate bids (possible only for a round-3
counter-offer state with unset fields, where the source would raise a
`TypeError` while sorting) is dropped. -/
def expectiminimax_with_landlord (Φ : CDF) :
    ℕ → GameState → ExtQ → ExtQ → PlayerType → ExtQ × Option SearchAction
  | 0, node, _, _, _ => (.fin (evaluate Φ node), none)
  | d + 1, node, alpha, beta, player_type =>
      emm_step Φ (expectiminimax_with_landlord Φ d) node alpha beta player_type

/-- Embeds `analysis/strategy.py`: the predicted landlord response type. -/
inductive RespType where
  | accept
  | request_best_final
  | counter_offer
  | reject
deriving DecidableEq, Repr

/-- Embeds `predict_landlord_response` result (the human-readable message is
presentational and omitted). -/
structure LandlordResponse where
  rtype : RespType
  probability : ℚ
deriving DecidableEq, Repr

/-- Embeds `calculate_win_probability_with_landlord`: probability of holding the
highest bid times the probability the landlord accepts it. -/
def calculate_win_probability_with_landlord (Φ : CDF) (bid : ℚ) (state : GameState) : ℚ :=
  let competitor_dist := get_competitor_bid_distribution Φ state
  let prob_highest := (competitor_dist.map fun e => if bid ≥ e.1 then e.2 else 0).sum
  let landlord_profile := mkLandlordProfile state.days_on_market
    (classify_market_conditions state.market_params)
    state.rental_situation.price_sens_landlord
  let bid_ratio := bid / state.listing_price
  let prob_accept : ℚ :=
    if bid_ratio ≥ landlord_profile.acceptance_threshold then 95/100
    else if bid_ratio ≥ landlord_profile.acceptance_threshold - 5/100 then 7/10
    else if bid_ratio ≥ landlord_profile.rejection_threshold then 4/10
    else 1/10
  prob_highest * prob_accept

/-- Embeds `predict_landlord_response`. -/
def predict_landlord_response (bid : ℚ) (state : GameState) : LandlordResponse :=
  let landlord_profile := mkLandlordProfile state.days_on_market
    (classify_market_conditions state.market_params)
    state.rental_situation.price_sens_landlord
  let bid_ratio := bid / state.listing_price
  if bid_ratio ≥ landlord_profile.acceptance_threshold then ⟨.accept, 9/10⟩
  else if bid_ratio ≥ 1 then ⟨.request_best_final, 6/10⟩
  else if bid_ratio ≥ landlord_profile.rejection_threshold then ⟨.counter_offer, 7/10⟩
  else ⟨.reject, 8/10⟩

/-- Embeds `calculate_expected_overpayment`: bid minus fair value (signed). -/
def calculate_expected_overpayment (bid : ℚ) (state : GameState) : ℚ :=
  bid - calculate_fair_market_value state.listing_price state.neighborhood_avg
    state.days_on_market state.market_params

/-- The three strategy names. -/
inductive StratName where
  | conservative
  | balanced
  | aggressive
deriving DecidableEq, Repr

/-- Embeds `generate_three_strategies`: the conservative bias of the base state
(risk tolerance forced down, round-3 override to 1, high negotiation cost
and overpayment sensitivity). -/
def conservative_state (base : GameState) : GameState :=
  { base with
    risk_tolerance := if base.round = 3 then 1 else 3/2
    negotiation_cost := 15/100
    overpayment_weight := OVERPAYMENT_WEIGHT * (15/10)
    property_value_weight := PROPERTY_VALUE_WEIGHT * (7/10) }

/-- Embeds `generate_three_strategies`: the balanced (user-preference) state. -/
def balanced_state (base : GameState) : GameState :=
  { base with
    risk_tolerance := base.risk_tolerance
    negotiation_cost := 5/100
    overpayment_weight := OVERPAYMENT_WEIGHT
    property_value_weight := PROPERTY_VALUE_WEIGHT }

/-- Embeds `generate_three_strategies`: the aggressive bias (risk tolerance forced
up, round-3 override to 5, low costs). -/
def aggressive_state (base : GameState) : GameState :=
  { base with
    risk_tolerance := if base.round = 3 then 5 else 9/2
    negotiation_cost := 1/100
    overpayment_weight := OVERPAYMENT_WEIGHT * (5/10)
    property_value_weight := PROPERTY_VALUE_WEIGHT * (13/10) }

/-- One full search from a strategy state: tree depth 4, open alpha/beta
window, tenant to move; the action is a bid whenever one is returned. -/
def run_search (Φ : CDF) (state : GameState) : ExtQ × Option ℚ :=
  let r := expectiminimax_with_landlord Φ TREE_DEPTH state .ninf .pinf .tenant_max
  (r.1, match r.2 with | some (.bid b) => some b | _ => none)

/-- Embeds `generate_three_strategies`: the deterministic fallback bid substituted
when the search returns no action. -/
def fallback_bid (name : StratName) (state : GameState) : ℚ :=
  match name with
  | .conservative => min (9/10 * state.listing_price) state.max_budget
  | .balanced => min (98/100 * state.listing_price) state.max_budget
  | .aggressive => min (105/100 * state.listing_price) state.max_budget

/-- A single strategy's recommendation record (the rationale string of the
source is presentational and omitted). -/
structure StrategyRecommendation where
  bid : ℚ
  win_probability : ℚ
  expected_overpayment : ℚ
  likely_landlord_response : LandlordResponse
  requires_negotiation : Bool
  payoff_value : ExtQ
deriving DecidableEq, Repr

/-- The metric fields attached to each strategy's final bid. -/
def strategy_record (Φ : CDF) (state : GameState) (bid : ℚ) (value : ExtQ) :
    StrategyRecommendation :=
  let win_prob := calculate_win_probability_with_landlord Φ bid state
  let landlord_response := predict_landlord_response bid state
  { bid := bid
    win_probability := win_prob
    expected_overpayment := calculate_expected_overpayment bid state
    likely_landlord_response := landlord_response
    requires_negotiation := landlord_response.rtype ≠ .accept
    payoff_value := value }

/-- The mapping strategy name → recommendation returned by
`generate_three_strategies`. -/
structure ThreeStrategies where
  conservative : StrategyRecommendation
  balanced : StrategyRecommendation
  aggressive : StrategyRecommendation
deriving DecidableEq, Repr

/-- Embeds `generate_three_strategies`, bid pipeline: run the search once per
biased state in the order conservative, balanced, aggressive; substitute
fallback bids for a `None` result; then apply the differentiation
safeguard, which compares each later strategy's bid with the bids already
stored (the source's final payoff-value comparison only appends to the
rationale strings and is omitted with them). -/
def strategy_bids (Φ : CDF) (base_state : GameState) : ℚ × ℚ × ℚ :=
  let cons_state := conservative_state base_state
  let bal_state := balanced_state base_state
  let agg_state := aggressive_state base_state
  let cons_bid := (run_search Φ cons_state).2.getD (fallback_bid .conservative cons_state)
  let bal_bid0 := (run_search Φ bal_state).2.getD (fallback_bid .balanced bal_state)
  let bal_bid :=
    if |bal_bid0 - cons_bid| < 20 then
      min (bal_bid0 + 30) (bal_state.max_budget * (1 + BUDGET_FLEXIBILITY))
    else bal_bid0
  let agg_bid0 := (run_search Φ agg_state).2.getD (fallback_bid .aggressive agg_state)
  let agg_bid :=
    if |agg_bid0 - cons_bid| < 20 then
      min (agg_bid0 + 60) (agg_state.max_budget * (1 + BUDGET_FLEXIBILITY))
    else if |agg_bid0 - bal_bid| < 20 then
      min (agg_bid0 + 40) (agg_state.max_budget * (1 + BUDGET_FLEXIBILITY))
    else agg_bid0
  (cons_bid, bal_bid, agg_bid)

/-- Embeds `generate_three_strategies`, assembled: attach the metric fields to each
strategy's final bid and the raw search value. -/
def generate_three_strategies (Φ : CDF) (base_state : GameState) : ThreeStrategies :=
  let cons_state := conservative_state base_state
  let bal_state := balanced_state base_state
  let agg_state := aggressive_state base_state
  let bids := strategy_bids Φ base_state
  { conservative := strategy_record Φ cons_state bids.1 (run_search Φ cons_state).1
    balanced := strategy_record Φ bal_state bids.2.1 (run_search Φ bal_state).1
    aggressive := strategy_record Φ agg_state bids.2.2 (run_search Φ agg_state).1 }

/-- A concrete, simple member of the CDF family, used to instantiate the
parametric embedding on search paths that never consult the distribution
(and as an arbitrary admissible cumulative function elsewhere). -/
def sampleCDF : CDF := fun _ _ _ => 1/2

/-- A cooling-market parameter set (median 0.98, sigma 0.05, no skew). -/
def mpCooling : MarketParams := ⟨98/100, 5/100, 0, "log_normal"⟩

/-- A very-cool-market parameter set (median 0.90, sigma 0.05, no skew). -/
def mpVeryCool : MarketParams := ⟨9/10, 5/100, 0, "log_normal"⟩

/-- Concrete user preferences: budget 2000, property value 3, risk 3. -/
def prefsA : UserPrefs := ⟨2000, 3, 3⟩

/-- Concrete rental situation: listing 1000, fresh listing, moderate
landlord, medium competition. -/
def rentalA : RentalSituation := ⟨1000, 1000, 0, 2, 2⟩

/-- A concrete round-1 root state. -/
def stateA : GameState :=
  { user_preferences := prefsA
    rental_situation := rentalA
    market_params := mpCooling
    risk_tolerance := 3 }

/-- A concrete round-3 counter-offer state (counter at 1100, own bid 1000). -/
def stateC9 : GameState :=
  { stateA with
    round := 3
    landlord_feedback := some .counter_offer
    counter_price := some 1100
    user_bid := some 1000 }

/-- A stale very-cool listing (40 days) with a tenant bid at 85% of asking:
the bid falls in the gap between the rejection threshold (0.80) and the
counter-offer window (0.90), below the floored acceptance threshold. -/
def stateC4 : GameState :=
  { user_preferences := prefsA
    rental_situation := ⟨1000, 1000, 40, 2, 2⟩
    market_params := mpVeryCool
    user_bid := some 850
    risk_tolerance := 3 }

/-- A non-terminal landlord-decision state: tenant bid at asking, close
competitor bid, best/final already requested, so the only landlord action
is accepting the tenant. -/
def stateC5 : GameState :=
  { user_preferences := prefsA
    rental_situation := rentalA
    market_params := mpVeryCool
    user_bid := some 1000
    highest_competitor_bid := some 990
    all_final_bids_submitted := true
    risk_tolerance := 3 }

/-- A terminal state (landlord rejected everyone). -/
def stateTerm : GameState :=
  { stateA with landlord_final_decision := some .reject_all }

/-- A terminal accept_tenant state whose tenant bid was never set: the
source's `evaluate` raises a `TypeError` on it (`payoff.py:24`). -/
def stateC1crash : GameState :=
  { stateA with landlord_final_decision := some .accept_tenant }

/-- A fresh very-cool listing with a firm landlord (price sensitivity 1),
tenant bid 990 and competitor bid 980 on an asking price of 1000. -/
def stateC6 : GameState :=
  { user_preferences := prefsA
    rental_situation := ⟨1000, 1000, 0, 1, 2⟩
    market_params := mpVeryCool
    user_bid := some 990
    highest_competitor_bid := some 980
    risk_tolerance := 3 }

/-- A round-3 counter-offer state whose two candidate bids (5000) both
exceed the flexible budget (1100), so every strategy search returns no
bid and the fallback bids are used. -/
def stateC2 : GameState :=
  { user_preferences := ⟨1000, 3, 3⟩
    rental_situation := ⟨140, 140, 0, 2, 1⟩
    market_params := mpCooling
    round := 3
    landlord_feedback := some .counter_offer
    counter_price := some 5000
    user_bid := some 5000
    risk_tolerance := 3 }

/-- C10: the derived `days_on_market` of a game state equals the configured
days plus three in round 3, and the configured days unchanged in round 1. -/
theorem c10_days_on_market_round_shift (s : GameState) :
    (s.round = 3 → s.days_on_market = s.rental_situation.days_on_market + 3) ∧
    (s.round = 1 → s.days_on_market = s.rental_situation.days_on_market) := by
  constructor <;> intro h <;> simp [GameState.days_on_market, h]

/-- C10, witness: at the concrete round-3 state the derived days are the
configured zero days plus three. -/
theorem c10_witness :
    stateC9.round = 3 ∧ stateC9.days_on_market = stateC9.rental_situation.days_on_market + 3 :=
  ⟨rfl, (c10_days_on_market_round_shift stateC9).1 rfl⟩

/-- C9: in a round-3 counter-offer state with a set counter price and a set
tenant bid, the candidate bid list is exactly the counter price followed by
the original bid. -/
theorem c9_counter_offer_candidates (s : GameState) (c b : ℚ) (h3 : s.round = 3)
    (hf : s.landlord_feedback = some .counter_offer) (hc : s.counter_price = some c)
    (hb : s.user_bid = some b) : get_possible_bids s = [some c, some b] := by
  simp [get_possible_bids, h3, hf, hc, hb]

/-- C9, witness: the concrete counter-offer state yields exactly its counter
price 1100 and original bid 1000. -/
theorem c9_witness :
    stateC9.round = 3 ∧ stateC9.landlord_feedback = some .counter_offer ∧
    get_possible_bids stateC9 = [some 1100, some 1000] :=
  ⟨rfl, rfl, c9_counter_offer_candidates stateC9 1100 1000 rfl rfl rfl rfl⟩

/-- C4 (amended): landlord action enumeration returns the empty list
whenever the state's tenant bid is unset. -/
theorem c4_no_tenant_bid_no_actions (s : GameState) (h : s.user_bid = none) :
    get_landlord_actions s = [] := by
  simp [get_landlord_actions, h]

/-- C4, witness: the concrete round-1 root state has no tenant bid and no
landlord actions. -/
theorem c4_witness : stateA.user_bid = none ∧ get_landlord_actions stateA = [] :=
  ⟨rfl, c4_no_tenant_bid_no_actions stateA rfl⟩

/-- C4, counterexample: a state with a tenant bid present (850 on asking
1000, stale very-cool market) for which the enumeration is nevertheless
empty, refuting the claimed "empty iff no tenant bid" equivalence. -/
theorem c4_counterexample :
    stateC4.user_bid = some 850 ∧ get_landlord_actions stateC4 = [] := by
  constructor
  · rfl
  · norm_num [get_landlord_actions, stateC4, prefsA, mpVeryCool,
      GameState.days_on_market, GameState.listing_price, mkLandlordProfile,
      calculate_desperation, calculate_acceptance_threshold,
      calculate_negotiation_willingness, classify_market_conditions,
      filter_landlord_actions]

/-- C5 (amended): the search cuts off on depth exhaustion at every node
type, returning the static evaluation with no action; a terminal state
returns the static evaluation (the terminal payoff) at every depth. -/
theorem c5_depth_cutoff_uniform (Φ : CDF) (s : GameState) (α β : ExtQ) (pt : PlayerType) :
    expectiminimax_with_landlord Φ 0 s α β pt = (.fin (evaluate Φ s), none) ∧
    (∀ d, is_terminal s = true →
      expectiminimax_with_landlord Φ d s α β pt = (.fin (evaluate Φ s), none)) := by
  refine ⟨rfl, fun d ht => ?_⟩
  cases d with
  | zero => rfl
  | succ d => simp [expectiminimax_with_landlord, emm_step, ht]

/-- C5, witness: at the concrete terminal state the depth-2 chance-node call
returns the terminal evaluation directly. -/
theorem c5_witness :
    is_terminal stateTerm = true ∧
    expectiminimax_with_landlord sampleCDF 2 stateTerm .ninf .pinf .competitor_chance
      = (.fin (evaluate sampleCDF stateTerm), none) :=
  ⟨rfl, (c5_depth_cutoff_uniform sampleCDF stateTerm .ninf .pinf .competitor_chance).2 2 rfl⟩

/-- C5, counterexample: a non-terminal state reached with depth 0 at a
landlord_min node returns the static (heuristic) evaluation with no
action, and differs from the result of expanding one more ply — so depth
exhaustion does cut off chance/landlord layers, contrary to the claim. -/
theorem c5_counterexample :
    is_terminal stateC5 = false ∧
    expectiminimax_with_landlord sampleCDF 0 stateC5 .ninf .pinf .landlord_min
      = (.fin (evaluate sampleCDF stateC5), none) ∧
    expectiminimax_with_landlord sampleCDF 1 stateC5 .ninf .pinf .landlord_min
      ≠ expectiminimax_with_landlord sampleCDF 0 stateC5 .ninf .pinf .landlord_min := by
  refine ⟨rfl, rfl, ?_⟩
  have hacts : get_landlord_actions stateC5 = [.accept_tenant 1000] := by
    norm_num [get_landlord_actions, filter_landlord_actions, stateC5, prefsA, rentalA,
      mpVeryCool, mkLandlordProfile, calculate_desperation, calculate_acceptance_threshold,
      calculate_negotiation_willingness, classify_market_conditions,
      GameState.days_on_market, GameState.listing_price]
  have hev : evaluate sampleCDF (apply_landlord_decision stateC5 (.accept_tenant 1000))
      = 1028/1875 := by
    norm_num [evaluate, evaluate_result, apply_landlord_decision, stateC5, prefsA, rentalA, mpVeryCool,
      calculate_fair_market_value, get_staleness_discount, classify_market_conditions,
      GameState.days_on_market, GameState.listing_price, GameState.neighborhood_avg,
      GameState.property_value, GameState.competitive_level]
  have ht : is_terminal stateC5 = false := rfl
  have h1 : expectiminimax_with_landlord sampleCDF 1 stateC5 .ninf .pinf .landlord_min
      = (.fin (1028/1875), some (.act (.accept_tenant 1000))) := by
    simp only [expectiminimax_with_landlord, emm_step, ht]
    norm_num [hacts, hev, sortAscBy, insertAscBy, landlordLoop,
      ExtQ.lt, ExtQ.le, ExtQ.min, ExtQ.max]
  rw [h1]
  simp [expectiminimax_with_landlord]

/-- C6: the firm-landlord filter keeps an accept action whose dollar bid is
below acceptance_threshold × 1.02 of the asking price, because the source
compares the dollar bid against the bare ratio `acceptance_threshold *
1.02`: on the concrete state the enumeration returns the accept action,
the best/final request and the counter offer unfiltered, although the
claim (and the source's own comment) require the accept to be dropped. -/
theorem c6_firm_filter_unit_mismatch :
    stateC6.rental_situation.price_sens_landlord = 1 ∧
    (990 : ℚ) < (mkLandlordProfile 0 .very_cool 1).acceptance_threshold * (102/100)
      * stateC6.listing_price ∧
    get_landlord_actions stateC6
      = [.accept_tenant 990, .request_best_final 20, .counter_offer 1000] := by
  refine ⟨rfl, ?_, ?_⟩
  · norm_num [mkLandlordProfile, calculate_desperation, calculate_acceptance_threshold,
      stateC6, GameState.listing_price]
  · norm_num [get_landlord_actions, filter_landlord_actions, stateC6, prefsA, mpVeryCool,
      mkLandlordProfile, calculate_desperation, calculate_acceptance_threshold,
      calculate_negotiation_willingness, classify_market_conditions,
      GameState.days_on_market, GameState.listing_price]

lemma neg_one_le_clamp (x : ℚ) : -1 ≤ max (-1) (min 1 x) := le_max_left _ _

lemma clamp_le_one (x : ℚ) : max (-1) (min 1 x) ≤ 1 :=
  max_le (by norm_num) (min_le_left _ _)

lemma heuristic_evaluation_bounded (Φ : CDF) (s : GameState) :
    -1 ≤ heuristic_evaluation Φ s ∧ heuristic_evaluation Φ s ≤ 1 := by
  unfold heuristic_evaluation
  split
  · norm_num
  · split
    · norm_num
    · exact ⟨neg_one_le_clamp _, clamp_le_one _⟩

/-- C1 (amended): the evaluation of any state with a property value in the
configured range `[1, 5]` lies in `[-1, 1]` whenever it returns at all —
the accept_tenant branch and the non-terminal heuristic are clamped, the
accept_competitor branch is `-0.5·(value/5)` plus an optional `+0.1`
bonus, and reject_all is `-0.2` — and it fails to return (the source
raises a `TypeError`) exactly on a terminal accept_tenant state with an
unset tenant bid. -/
theorem c1_evaluate_bounded (Φ : CDF) (s : GameState)
    (h1 : 1 ≤ s.property_value) (h5 : s.property_value ≤ 5) :
    (∀ v, evaluate_result Φ s = some v → -1 ≤ v ∧ v ≤ 1) ∧
    (evaluate_result Φ s = none ↔
      s.landlord_final_decision = some .accept_tenant ∧ s.user_bid = none) := by
  constructor
  · intro v hv
    rcases hd : s.landlord_final_decision with _ | d
    · simp only [evaluate_result, hd] at hv
      injection hv with hv'
      subst hv'
      exact heuristic_evaluation_bounded Φ s
    · cases d with
      | accept_tenant =>
          rcases hu : s.user_bid with _ | b
          · simp [evaluate_result, hd, hu] at hv
          · simp only [evaluate_result, hd, hu] at hv
            injection hv with hv'
            subst hv'
            exact ⟨neg_one_le_clamp _, clamp_le_one _⟩
      | accept_competitor =>
          simp only [evaluate_result, hd] at hv
          injection hv with hv'
          subst hv'
          split_ifs
          · constructor <;> nlinarith
          · constructor <;> nlinarith
      | reject_all =>
          simp only [evaluate_result, hd] at hv
          injection hv with hv'
          subst hv'
          norm_num
  · constructor
    · intro h
      rcases hd : s.landlord_final_decision with _ | d
      · simp [evaluate_result, hd] at h
      · cases d with
        | accept_tenant =>
            rcases hu : s.user_bid with _ | b
            · exact ⟨rfl, rfl⟩
            · simp [evaluate_result, hd, hu] at h
        | accept_competitor => simp [evaluate_result, hd] at h
        | reject_all => simp [evaluate_result, hd] at h
    · rintro ⟨hd, hu⟩
      simp [evaluate_result, hd, hu]

/-- C1, witness: the concrete root state has property value 3, a returning
evaluation bounded by `[-1, 1]`, and is not on the error path. -/
theorem c1_witness :
    1 ≤ stateA.property_value ∧ stateA.property_value ≤ 5 ∧
    ((∀ v, evaluate_result sampleCDF stateA = some v → -1 ≤ v ∧ v ≤ 1) ∧
      (evaluate_result sampleCDF stateA = none ↔
        stateA.landlord_final_decision = some .accept_tenant ∧ stateA.user_bid = none)) :=
  ⟨by norm_num [stateA, prefsA, GameState.property_value],
   by norm_num [stateA, prefsA, GameState.property_value],
   c1_evaluate_bounded sampleCDF stateA
     (by norm_num [stateA, prefsA, GameState.property_value])
     (by norm_num [stateA, prefsA, GameState.property_value])⟩

/-- C1, counterexample: a terminal accept_tenant state with an unset tenant
bid — covered by the claim's "with or without a tenant bid set" — on which
the source raises a `TypeError` (`payoff.py:24`) instead of returning a
value in `[-1, 1]`; the faithful embedding yields `none`. -/
theorem c1_counterexample :
    1 ≤ stateC1crash.property_value ∧ stateC1crash.property_value ≤ 5 ∧
    stateC1crash.landlord_final_decision = some .accept_tenant ∧
    stateC1crash.user_bid = none ∧
    evaluate_result sampleCDF stateC1crash = none :=
  ⟨by norm_num [stateC1crash, stateA, prefsA, GameState.property_value],
   by norm_num [stateC1crash, stateA, prefsA, GameState.property_value],
   rfl, rfl, rfl⟩

lemma orderStatRest_nonneg (f : ℚ → ℚ) :
    ∀ (prev : ℚ) (l : List ℚ), ∀ x ∈ orderStatRest f prev l, 0 ≤ x := by
  intro prev l
  induction l generalizing prev with
  | nil => simp [orderStatRest]
  | cons b rest ih =>
      intro x hx
      rcases (by simpa [orderStatRest] using hx :
          x = max 0 (f b - f prev) ∨ x ∈ orderStatRest f b rest) with h | h
      · simpa [h] using le_max_left 0 (f b - f prev)
      · exact ih b x h

lemma orderStatRest_length (f : ℚ → ℚ) :
    ∀ (prev : ℚ) (l : List ℚ), (orderStatRest f prev l).length = l.length := by
  intro prev l
  induction l generalizing prev with
  | nil => simp [orderStatRest]
  | cons b rest ih => simp [orderStatRest, ih b]

lemma calculate_order_statistics_nonneg (Φ : CDF) (br : List ℚ) (median sigma skew : ℚ)
    (N : ℕ) : ∀ x ∈ calculate_order_statistics Φ br median sigma skew N, 0 ≤ x := by
  intro x hx
  cases br with
  | nil => simp [calculate_order_statistics] at hx
  | cons b rest =>
      rcases (by simpa [calculate_order_statistics] using hx :
          x = max 0 _ ∨ x ∈ orderStatRest _ b rest) with h | h
      · simpa [h] using le_max_left 0 _
      · exact orderStatRest_nonneg _ b rest x h

lemma calculate_order_statistics_length (Φ : CDF) (br : List ℚ) (median sigma skew : ℚ)
    (N : ℕ) : (calculate_order_statistics Φ br median sigma skew N).length = br.length := by
  cases br with
  | nil => simp [calculate_order_statistics]
  | cons b rest => simp [calculate_order_statistics, orderStatRest_length]

lemma linspace_length (lo hi : ℚ) (n : ℕ) : (linspace lo hi n).length = n := by
  unfold linspace
  rw [List.length_map, List.length_range]

lemma list_sum_map_div (l : List ℚ) (c : ℚ) : (l.map fun p => p / c).sum = l.sum / c := by
  induction l with
  | nil => simp
  | cons a t ih => simp [ih, add_div]

lemma competitor_bid_range_length (s : GameState) :
    (competitor_bid_range s).length = NUM_BID_SAMPLES := by
  unfold competitor_bid_range get_dynamic_bid_range
  simp [linspace_length]

lemma competitor_masses_length (Φ : CDF) (s : GameState) :
    (competitor_masses Φ s).length = (competitor_bid_range s).length := by
  unfold competitor_masses
  exact calculate_order_statistics_length _ _ _ _ _ _

lemma competitor_masses_nonneg (Φ : CDF) (s : GameState) :
    ∀ x ∈ competitor_masses Φ s, 0 ≤ x := by
  unfold competitor_masses
  exact calculate_order_statistics_nonneg _ _ _ _ _ _

/-- C7: the competitor-bid distribution is a finite list of (bid,
probability) pairs whose probabilities sum to exactly one, and when every
order-statistics mass vanishes it degrades to the uniform distribution over
the sample points. -/
theorem c7_distribution_normalised (Φ : CDF) (s : GameState)
    (hv : validate_market_parameters s.market_params = true)
    (hcl : s.competitive_level = 1 ∨ s.competitive_level = 2 ∨ s.competitive_level = 3) :
    (((get_competitor_bid_distribution Φ s).map Prod.snd).sum = 1) ∧
    ((∀ m ∈ competitor_masses Φ s, m = 0) →
      get_competitor_bid_distribution Φ s
        = (competitor_bid_range s).zip
            (List.replicate NUM_BID_SAMPLES ((1 : ℚ) / (NUM_BID_SAMPLES : ℚ)))) := by
  have hrange : (competitor_bid_range s).length = NUM_BID_SAMPLES :=
    competitor_bid_range_length s
  have hlen : (competitor_masses Φ s).length = (competitor_bid_range s).length :=
    competitor_masses_length Φ s
  constructor
  · by_cases h0 : (competitor_masses Φ s).sum = 0
    · simp only [get_competitor_bid_distribution, if_pos h0]
      rw [List.map_snd_zip _ _ (by simp [hrange])]
      rw [List.sum_replicate, hrange]
      simp [NUM_BID_SAMPLES, nsmul_eq_mul]
    · simp only [get_competitor_bid_distribution, if_neg h0]
      rw [List.map_snd_zip _ _ (by simp [hlen])]
      rw [list_sum_map_div, div_self h0]
  · intro hall
    have h0 : (competitor_masses Φ s).sum = 0 := List.sum_eq_zero hall
    simp only [get_competitor_bid_distribution, if_pos h0, hrange]

/-- C7, witness: the concrete root state has valid market parameters and
competition level 2. -/
theorem c7_witness :
    validate_market_parameters stateA.market_params = true ∧
    stateA.competitive_level = 2 ∧
    ((get_competitor_bid_distribution sampleCDF stateA).map Prod.snd).sum = 1 :=
  ⟨by norm_num [validate_market_parameters, stateA, mpCooling], rfl,
   (c7_distribution_normalised sampleCDF stateA
     (by norm_num [validate_market_parameters, stateA, mpCooling])
     (Or.inr (Or.inl rfl))).1⟩

lemma competitor_dist_snd_nonneg (Φ : CDF) (s : GameState) :
    ∀ e ∈ get_competitor_bid_distribution Φ s, 0 ≤ e.2 := by
  intro e he
  by_cases h0 : (competitor_masses Φ s).sum = 0
  · simp only [get_competitor_bid_distribution, if_pos h0] at he
    have h2 := (List.of_mem_zip he).2
    have := List.eq_of_mem_replicate h2
    rw [this]
    positivity
  · simp only [get_competitor_bid_distribution, if_neg h0] at he
    have h2 := (List.of_mem_zip he).2
    rcases List.mem_map.mp h2 with ⟨m, hm, hme⟩
    have hmn : 0 ≤ m := competitor_masses_nonneg Φ s m hm
    have htot : 0 < (competitor_masses Φ s).sum :=
      lt_of_le_of_ne (List.sum_nonneg (competitor_masses_nonneg Φ s)) (Ne.symm h0)
    rw [← hme]
    exact div_nonneg hmn htot.le

/-- C8: the win probability attached to a recommendation is monotonically
non-decreasing in the bid amount, with the rest of the state fixed. -/
theorem c8_win_probability_monotone (Φ : CDF) (s : GameState) (b1 b2 : ℚ)
    (hL : 0 < s.listing_price) (hb : b1 ≤ b2) :
    calculate_win_probability_with_landlord Φ b1 s
      ≤ calculate_win_probability_with_landlord Φ b2 s := by
  have hr : b1 / s.listing_price ≤ b2 / s.listing_price := by gcongr
  have hnn := competitor_dist_snd_nonneg Φ s
  simp only [calculate_win_probability_with_landlord]
  have hsum : ((get_competitor_bid_distribution Φ s).map
        fun e => if b1 ≥ e.1 then e.2 else 0).sum
      ≤ ((get_competitor_bid_distribution Φ s).map
        fun e => if b2 ≥ e.1 then e.2 else 0).sum := by
    apply List.sum_le_sum
    intro e he
    split_ifs with hc1 hc2 hc2
    · exact le_rfl
    · exact absurd (le_trans hc1 hb) hc2
    · exact hnn e he
    · exact le_rfl
  have hsum2 : 0 ≤ ((get_competitor_bid_distribution Φ s).map
      fun e => if b2 ≥ e.1 then e.2 else 0).sum := by
    apply List.sum_nonneg
    intro x hx
    rcases List.mem_map.mp hx with ⟨e, he, hex⟩
    rw [← hex]
    split_ifs
    · exact hnn e he
    · exact le_rfl
  apply mul_le_mul hsum _ _ hsum2
  · split_ifs <;> linarith
  · split_ifs <;> norm_num

/-- C8, witness: on the concrete root state a bid of 900 has no greater a
win probability than a bid of 1000. -/
theorem c8_witness :
    0 < stateA.listing_price ∧ (900 : ℚ) ≤ 1000 ∧
    calculate_win_probability_with_landlord sampleCDF 900 stateA
      ≤ calculate_win_probability_with_landlord sampleCDF 1000 stateA :=
  ⟨by norm_num [stateA, rentalA, GameState.listing_price], by norm_num,
   c8_win_probability_monotone sampleCDF stateA 900 1000
     (by norm_num [stateA, rentalA, GameState.listing_price]) (by norm_num)⟩

/-- C2 (amended): the deterministic fallback bids substituted when the
search returns no action are ordered conservative ≤ balanced ≤ aggressive
for any non-negative listing price; the post-safeguard ordering of the
final bids is not guaranteed. -/
theorem c2_fallback_bids_ordered (s : GameState) (hl : 0 ≤ s.listing_price) :
    fallback_bid .conservative s ≤ fallback_bid .balanced s ∧
    fallback_bid .balanced s ≤ fallback_bid .aggressive s := by
  unfold fallback_bid
  constructor <;> exact min_le_min (by nlinarith) le_rfl

/-- C2 (amended), witness: the fallback bids of the concrete root state are
ordered. -/
theorem c2_amended_witness :
    0 ≤ stateA.listing_price ∧
    fallback_bid .conservative stateA ≤ fallback_bid .balanced stateA ∧
    fallback_bid .balanced stateA ≤ fallback_bid .aggressive stateA :=
  ⟨by norm_num [stateA, rentalA, GameState.listing_price],
   c2_fallback_bids_ordered stateA
     (by norm_num [stateA, rentalA, GameState.listing_price])⟩

lemma run_search_stateC2 (Φ : CDF) (st : GameState) (hr : st.round = 3)
    (hf : st.landlord_feedback = some .counter_offer) (hc : st.counter_price = some 5000)
    (hu : st.user_bid = some 5000) (hb : st.user_preferences.max_budget = 1000)
    (hterm : st.landlord_final_decision = none) :
    run_search Φ st = (.ninf, none) := by
  have key : ∀ f, emm_step Φ f st .ninf .pinf .tenant_max = (.ninf, none) := by
    intro f
    norm_num [emm_step, is_terminal, hterm, get_possible_bids, hr, hf, hc, hu,
      List.filterMap, sortDescBy, insertDescBy, tenantLoop, GameState.max_budget, hb,
      BUDGET_FLEXIBILITY, lt_self_iff_false]
  have h4 : expectiminimax_with_landlord Φ TREE_DEPTH st .ninf .pinf .tenant_max
      = emm_step Φ (expectiminimax_with_landlord Φ 3) st .ninf .pinf .tenant_max := rfl
  simp [run_search, h4, key]

/-- C2, counterexample: a valid round-3 counter-offer configuration (listing
140, budget 1000, both candidate bids 5000 over the flexible budget) for
which all three searches return no bid, the fallback bids are 126 / 137.2 /
147, and the differentiation safeguard nudges balanced to 167.2 while
leaving aggressive at 147 — so the final bids violate balanced ≤
aggressive. -/
theorem c2_counterexample :
    validate_market_parameters stateC2.market_params = true ∧
    (generate_three_strategies sampleCDF stateC2).balanced.bid
      > (generate_three_strategies sampleCDF stateC2).aggressive.bid := by
  constructor
  · norm_num [validate_market_parameters, stateC2, mpCooling]
  · have hcons : run_search sampleCDF (conservative_state stateC2) = (.ninf, none) :=
      run_search_stateC2 sampleCDF _ rfl rfl rfl rfl rfl rfl
    have hbal : run_search sampleCDF (balanced_state stateC2) = (.ninf, none) :=
      run_search_stateC2 sampleCDF _ rfl rfl rfl rfl rfl rfl
    have hagg : run_search sampleCDF (aggressive_state stateC2) = (.ninf, none) :=
      run_search_stateC2 sampleCDF _ rfl rfl rfl rfl rfl rfl
    have hsb : strategy_bids sampleCDF stateC2 = (126, 836/5, 147) := by
      have hl1 : (conservative_state stateC2).listing_price = 140 := rfl
      have hl2 : (balanced_state stateC2).listing_price = 140 := rfl
      have hl3 : (aggressive_state stateC2).listing_price = 140 := rfl
      have hm1 : (conservative_state stateC2).max_budget = 1000 := rfl
      have hm2 : (balanced_state stateC2).max_budget = 1000 := rfl
      have hm3 : (aggressive_state stateC2).max_budget = 1000 := rfl
      simp only [strategy_bids, hcons, hbal, hagg]
      norm_num [fallback_bid, hl1, hl2, hl3, hm1, hm2, hm3, BUDGET_FLEXIBILITY,
        abs_sub_lt_iff, abs_lt]
    norm_num [generate_three_strategies, strategy_record, hsb]

lemma linspace_nonneg (lo hi : ℚ) (n : ℕ) (hlo : 0 ≤ lo) (hhi : 0 ≤ hi) :
    ∀ x ∈ linspace lo hi n, 0 ≤ x := by
  intro x hx
  unfold linspace at hx
  rcases List.mem_map.mp hx with ⟨i, hi_mem, rfl⟩
  have hin : i < n := List.mem_range.mp hi_mem
  by_cases hn : (n : ℚ) - 1 ≤ 0
  · have hn1 : n ≤ 1 := by
      by_contra hgt
      push_neg at hgt
      have : (2 : ℚ) ≤ (n : ℚ) := by exact_mod_cast hgt
      linarith
    interval_cases n
    · exact absurd hin (by omega)
    · have hi0 : i = 0 := by omega
      subst hi0
      norm_num
      exact hlo
  · push_neg at hn
    have hiD : (i : ℚ) ≤ (n : ℚ) - 1 := by
      have : (i : ℚ) + 1 ≤ (n : ℚ) := by exact_mod_cast hin
      linarith
    have ht0 : 0 ≤ (i : ℚ) / ((n : ℚ) - 1) := div_nonneg (by positivity) hn.le
    have ht1 : (i : ℚ) / ((n : ℚ) - 1) ≤ 1 := (div_le_one hn).mpr hiD
    have hx' : lo + (hi - lo) * (i : ℚ) / ((n : ℚ) - 1)
        = lo + (hi - lo) * ((i : ℚ) / ((n : ℚ) - 1)) := by ring
    rw [hx']
    nlinarith [mul_nonneg (sub_nonneg.mpr ht1) hlo, mul_nonneg ht0 hhi]

lemma mem_insertDescBy {α : Type} (key : α → ℚ) (x a : α) (l : List α) :
    a ∈ insertDescBy key x l ↔ a = x ∨ a ∈ l := by
  induction l with
  | nil => simp [insertDescBy]
  | cons y ys ih =>
      unfold insertDescBy
      split_ifs <;> simp [ih] <;> tauto

lemma mem_sortDescBy {α : Type} (key : α → ℚ) (l : List α) (a : α) :
    a ∈ sortDescBy key l ↔ a ∈ l := by
  induction l with
  | nil => simp [sortDescBy]
  | cons y ys ih =>
      show a ∈ insertDescBy key y (sortDescBy key ys) ↔ _
      rw [mem_insertDescBy]
      simp [ih]

lemma tenantLoop_best_mem (flex : ℚ) (beta : ExtQ) (step : ℚ → ExtQ → ExtQ) :
    ∀ (l : List ℚ) (m : ExtQ) (best : Option ℚ) (alpha : ExtQ) (x : ℚ),
      (tenantLoop flex beta step l m best alpha).2 = some x →
      (x ∈ l ∧ x ≤ flex) ∨ best = some x := by
  intro l
  induction l with
  | nil =>
      intro m best alpha x h
      exact Or.inr (by simpa [tenantLoop] using h)
  | cons bid rest ih =>
      intro m best alpha x h
      rw [tenantLoop] at h
      split_ifs at h with hskip
      · rcases ih _ _ _ _ h with ⟨hm, hle⟩ | hbest
        · exact Or.inl ⟨List.mem_cons_of_mem _ hm, hle⟩
        · exact Or.inr hbest
      · have hbf : bid ≤ flex := le_of_not_lt hskip
        dsimp only at h
        split_ifs at h with hbrk hlt hlt
        · -- break with the new best
          obtain rfl : bid = x := Option.some.inj h
          exact Or.inl ⟨List.mem_cons_self _ _, hbf⟩
        · -- break keeping the old best
          exact Or.inr h
        · -- continue with the new best
          rcases ih _ _ _ _ h with ⟨hm, hle⟩ | hbest
          · exact Or.inl ⟨List.mem_cons_of_mem _ hm, hle⟩
          · obtain rfl : bid = x := Option.some.inj hbest
            exact Or.inl ⟨List.mem_cons_self _ _, hbf⟩
        · -- continue keeping the old best
          rcases ih _ _ _ _ h with ⟨hm, hle⟩ | hbest
          · exact Or.inl ⟨List.mem_cons_of_mem _ hm, hle⟩
          · exact Or.inr hbest

lemma get_possible_bids_nonneg (s : GameState)
    (hl : 0 < s.listing_price) (hb : 0 < s.max_budget)
    (hc : ∀ x, s.counter_price = some x → 0 ≤ x)
    (hu : ∀ x, s.user_bid = some x → 0 ≤ x)
    (hp : ∀ x, s.previous_bid = some x → 0 ≤ x) :
    ∀ ob ∈ get_possible_bids s, ∀ b, ob = some b → 0 ≤ b := by
  have hflex : 0 < s.max_budget * (1 + BUDGET_FLEXIBILITY) := by
    unfold BUDGET_FLEXIBILITY
    nlinarith
  intro ob hob b hb'
  subst hb'
  unfold get_possible_bids at hob
  split_ifs at hob with h1 h2
  · -- round-3 counter-offer branch
    rcases (by simpa using hob : some b = s.counter_price ∨ some b = s.user_bid) with h | h
    · exact hc b h.symm
    · exact hu b h.symm
  · -- round-3 best/final branch
    dsimp only at hob
    rcases List.mem_map.mp hob with ⟨x, hx, hxe⟩
    obtain rfl : x = b := Option.some.inj hxe
    set cur0 : Option ℚ :=
      match s.previous_bid with
      | some p => if p ≠ 0 then some p else s.user_bid
      | none => s.user_bid with hcur0
    have hcur : 0 ≤ cur0.getD (s.listing_price * (98/100)) := by
      rcases hprev : s.previous_bid with _ | p
      · rcases huser : s.user_bid with _ | u
        · simp [hcur0, hprev, huser]
          positivity
        · simpa [hcur0, hprev, huser] using hu u huser
      · by_cases hp0 : p = 0
        · rcases huser : s.user_bid with _ | u
          · simp [hcur0, hprev, hp0, huser]
            positivity
          · simpa [hcur0, hprev, hp0, huser] using hu u huser
        · simpa [hcur0, hprev, hp0] using hp p hprev
    set current := cur0.getD (s.listing_price * (98/100)) with hcurrent
    have hmin : 0 ≤ current * (102/100) := by positivity
    have hmax0 : 0 ≤ min (current * (110/100)) (s.max_budget * (1 + BUDGET_FLEXIBILITY)) :=
      le_min (by positivity) hflex.le
    refine linspace_nonneg _ _ _ hmin ?_ _ hx
    split_ifs with hgt
    · positivity
    · exact hmax0
  · -- round-1 / default branch
    dsimp only at hob
    split_ifs at hob with hfb hlt hlt
    · -- degenerate window, fallback band, non-trivial linspace
      rcases List.mem_map.mp hob with ⟨x, hx, hxe⟩
      obtain rfl : x = b := Option.some.inj hxe
      have hmb : 0 < min (s.max_budget * (1 + BUDGET_FLEXIBILITY))
          (s.listing_price * (105/100)) := lt_min hflex (by positivity)
      exact linspace_nonneg _ _ _ (mul_nonneg hmb.le (by norm_num)) hmb.le _ hx
    · -- degenerate window, fallback band, singleton
      have hmb : 0 < min (s.max_budget * (1 + BUDGET_FLEXIBILITY))
          (s.listing_price * (105/100)) := lt_min hflex (by positivity)
      rw [List.mem_singleton] at hob
      obtain rfl := Option.some.inj hob
      exact mul_nonneg hmb.le (by norm_num)
    · -- regular window, linspace
      rcases List.mem_map.mp hob with ⟨x, hx, hxe⟩
      obtain rfl : x = b := Option.some.inj hxe
      refine linspace_nonneg _ _ _ ?_ ?_ _ hx
      · exact le_max_of_le_right (by positivity)
      · exact le_of_lt (lt_of_le_of_lt (le_max_of_le_right (by positivity)) hlt)
    · -- regular window, singleton
      rw [List.mem_singleton] at hob
      obtain rfl := Option.some.inj hob
      exact le_max_of_le_right (by positivity)

lemma emm_step_tenant_bid_bounds (Φ : CDF)
    (f : GameState → ExtQ → ExtQ → PlayerType → ExtQ × Option SearchAction)
    (st : GameState) (α β : ExtQ) (x : ℚ)
    (h : (emm_step Φ f st α β .tenant_max).2 = some (.bid x)) :
    some x ∈ get_possible_bids st ∧ x ≤ st.max_budget * (1 + BUDGET_FLEXIBILITY) := by
  unfold emm_step at h
  split_ifs at h with hterm
  · dsimp only at h
    rw [Option.map_eq_some'] at h
    rcases h with ⟨y, hy, hyx⟩
    have hxy : y = x := SearchAction.bid.inj hyx
    rcases tenantLoop_best_mem _ _ _ _ _ _ _ _ hy with ⟨hmem, hle⟩ | hnone
    · rw [mem_sortDescBy] at hmem
      rcases List.mem_filterMap.mp hmem with ⟨ob, hob, hid⟩
      have hid' : ob = some y := hid
      rw [hid'] at hob
      rw [← hxy]
      exact ⟨hob, hle⟩
    · exact absurd hnone (by simp)
  · dsimp only at h
    rw [Option.map_eq_some'] at h
    rcases h with ⟨y, hy, hyx⟩
    have hxy : y = x := SearchAction.bid.inj hyx
    rcases tenantLoop_best_mem _ _ _ _ _ _ _ _ hy with ⟨hmem, hle⟩ | hnone
    · rw [mem_sortDescBy] at hmem
      rcases List.mem_filterMap.mp hmem with ⟨ob, hob, hid⟩
      have hid' : ob = some y := hid
      rw [hid'] at hob
      rw [← hxy]
      exact ⟨hob, hle⟩
    · exact absurd hnone (by simp)

lemma run_search_bid_bounds (Φ : CDF) (st : GameState) (x : ℚ)
    (hl : 0 < st.listing_price) (hb : 0 < st.max_budget)
    (hc : ∀ y, st.counter_price = some y → 0 ≤ y)
    (hu : ∀ y, st.user_bid = some y → 0 ≤ y)
    (hp : ∀ y, st.previous_bid = some y → 0 ≤ y)
    (h : (run_search Φ st).2 = some x) :
    0 ≤ x ∧ x ≤ st.max_budget * (1 + BUDGET_FLEXIBILITY) := by
  have h4 : (run_search Φ st).2
      = (match (emm_step Φ (expectiminimax_with_landlord Φ 3) st .ninf .pinf .tenant_max).2 with
        | some (.bid b) => some b
        | _ => none) := rfl
  rw [h4] at h
  rcases hres : (emm_step Φ (expectiminimax_with_landlord Φ 3) st .ninf .pinf .tenant_max).2
    with _ | sa
  · rw [hres] at h
    simp at h
  · rw [hres] at h
    cases sa with
    | bid b =>
        have hbx : b = x := by simpa using h
        subst hbx
        obtain ⟨hmem, hle⟩ := emm_step_tenant_bid_bounds Φ _ st _ _ b hres
        exact ⟨get_possible_bids_nonneg st hl hb hc hu hp _ hmem b rfl, hle⟩
    | act a => simp at h

lemma fallback_bid_bounds (name : StratName) (st : GameState)
    (hl : 0 < st.listing_price) (hb : 0 < st.max_budget) :
    0 ≤ fallback_bid name st ∧
    fallback_bid name st ≤ st.max_budget * (1 + BUDGET_FLEXIBILITY) := by
  have hflex : st.max_budget ≤ st.max_budget * (1 + BUDGET_FLEXIBILITY) := by
    unfold BUDGET_FLEXIBILITY
    nlinarith
  cases name <;> unfold fallback_bid <;>
    exact ⟨le_min (by positivity) hb.le, le_trans (min_le_right _ _) hflex⟩

lemma raw_bid_bounds (Φ : CDF) (name : StratName) (st : GameState)
    (hl : 0 < st.listing_price) (hb : 0 < st.max_budget)
    (hc : ∀ y, st.counter_price = some y → 0 ≤ y)
    (hu : ∀ y, st.user_bid = some y → 0 ≤ y)
    (hp : ∀ y, st.previous_bid = some y → 0 ≤ y) :
    0 ≤ ((run_search Φ st).2.getD (fallback_bid name st)) ∧
    ((run_search Φ st).2.getD (fallback_bid name st))
      ≤ st.max_budget * (1 + BUDGET_FLEXIBILITY) := by
  rcases hres : (run_search Φ st).2 with _ | b
  · simpa using fallback_bid_bounds name st hl hb
  · simpa using run_search_bid_bounds Φ st b hl hb hc hu hp hres

lemma nudge_bounds (x flex k : ℚ) (cond : Prop) [Decidable cond]
    (hx0 : 0 ≤ x) (hxf : x ≤ flex) (hk : 0 ≤ k) :
    0 ≤ (if cond then min (x + k) flex else x) ∧
    (if cond then min (x + k) flex else x) ≤ flex := by
  split_ifs
  · exact ⟨le_min (by linarith) (le_trans hx0 hxf), min_le_right _ _⟩
  · exact ⟨hx0, hxf⟩

/-- C3: for every configuration with positive listing price and budget (and
non-negative stored bids), each of the three recommended bids — whether
produced by the search, the None-bid fallback, or the differentiation
nudge — lies in `[0, max_budget * 1.10]`. -/
theorem c3_bids_within_flexible_budget (Φ : CDF) (base : GameState)
    (hl : 0 < base.listing_price) (hb : 0 < base.max_budget)
    (hc : ∀ x, base.counter_price = some x → 0 ≤ x)
    (hu : ∀ x, base.user_bid = some x → 0 ≤ x)
    (hp : ∀ x, base.previous_bid = some x → 0 ≤ x) :
    (0 ≤ (generate_three_strategies Φ base).conservative.bid ∧
      (generate_three_strategies Φ base).conservative.bid
        ≤ base.max_budget * (1 + BUDGET_FLEXIBILITY)) ∧
    (0 ≤ (generate_three_strategies Φ base).balanced.bid ∧
      (generate_three_strategies Φ base).balanced.bid
        ≤ base.max_budget * (1 + BUDGET_FLEXIBILITY)) ∧
    (0 ≤ (generate_three_strategies Φ base).aggressive.bid ∧
      (generate_three_strategies Φ base).aggressive.bid
        ≤ base.max_budget * (1 + BUDGET_FLEXIBILITY)) := by
  have rb_cons := raw_bid_bounds Φ .conservative (conservative_state base) hl hb hc hu hp
  have rb_bal := raw_bid_bounds Φ .balanced (balanced_state base) hl hb hc hu hp
  have rb_agg := raw_bid_bounds Φ .aggressive (aggressive_state base) hl hb hc hu hp
  have e1 : (generate_three_strategies Φ base).conservative.bid
      = (run_search Φ (conservative_state base)).2.getD
          (fallback_bid .conservative (conservative_state base)) := rfl
  have e2 : (generate_three_strategies Φ base).balanced.bid
      = (if |(run_search Φ (balanced_state base)).2.getD
              (fallback_bid .balanced (balanced_state base))
            - (run_search Φ (conservative_state base)).2.getD
              (fallback_bid .conservative (conservative_state base))| < 20 then
          min ((run_search Φ (balanced_state base)).2.getD
              (fallback_bid .balanced (balanced_state base)) + 30)
            (base.max_budget * (1 + BUDGET_FLEXIBILITY))
        else (run_search Φ (balanced_state base)).2.getD
          (fallback_bid .balanced (balanced_state base))) := rfl
  have e3 : (generate_three_strategies Φ base).aggressive.bid
      = (if |(run_search Φ (aggressive_state base)).2.getD
              (fallback_bid .aggressive (aggressive_state base))
            - (run_search Φ (conservative_state base)).2.getD
              (fallback_bid .conservative (conservative_state base))| < 20 then
          min ((run_search Φ (aggressive_state base)).2.getD
              (fallback_bid .aggressive (aggressive_state base)) + 60)
            (base.max_budget * (1 + BUDGET_FLEXIBILITY))
        else if |(run_search Φ (aggressive_state base)).2.getD
              (fallback_bid .aggressive (aggressive_state base))
            - (generate_three_strategies Φ base).balanced.bid| < 20 then
          min ((run_search Φ (aggressive_state base)).2.getD
              (fallback_bid .aggressive (aggressive_state base)) + 40)
            (base.max_budget * (1 + BUDGET_FLEXIBILITY))
        else (run_search Φ (aggressive_state base)).2.getD
          (fallback_bid .aggressive (aggressive_state base))) := rfl
  refine ⟨by rw [e1]; exact rb_cons, ?_, ?_⟩
  · rw [e2]
    exact nudge_bounds _ _ 30 _ rb_bal.1 rb_bal.2 (by norm_num)
  · rw [e3]
    split_ifs
    · exact ⟨le_min (by linarith [rb_agg.1]) (le_trans rb_agg.1 rb_agg.2), min_le_right _ _⟩
    · exact ⟨le_min (by linarith [rb_agg.1]) (le_trans rb_agg.1 rb_agg.2), min_le_right _ _⟩
    · exact rb_agg

/-- C3, witness: the concrete root state has positive listing price and
budget, no stored optional bids, and all three recommended bids lie within
the flexible budget. -/
theorem c3_witness :
    0 < stateA.listing_price ∧ 0 < stateA.max_budget ∧
    ((0 ≤ (generate_three_strategies sampleCDF stateA).conservative.bid ∧
      (generate_three_strategies sampleCDF stateA).conservative.bid
        ≤ stateA.max_budget * (1 + BUDGET_FLEXIBILITY)) ∧
    (0 ≤ (generate_three_strategies sampleCDF stateA).balanced.bid ∧
      (generate_three_strategies sampleCDF stateA).balanced.bid
        ≤ stateA.max_budget * (1 + BUDGET_FLEXIBILITY)) ∧
    (0 ≤ (generate_three_strategies sampleCDF stateA).aggressive.bid ∧
      (generate_three_strategies sampleCDF stateA).aggressive.bid
        ≤ stateA.max_budget * (1 + BUDGET_FLEXIBILITY))) :=
  ⟨by norm_num [stateA, rentalA, GameState.listing_price],
   by norm_num [stateA, prefsA, GameState.max_budget],
   c3_bids_within_flexible_budget sampleCDF stateA
     (by norm_num [stateA, rentalA, GameState.listing_price])
     (by norm_num [stateA, prefsA, GameState.max_budget])
     (fun x h => nomatch h) (fun x h => nomatch h) (fun x h => nomatch h)⟩

end RentalBidding
